import Mathlib

/-!
# awsmonitor: the `list` command (`cmd/list.go`)

A shallow embedding of `cmd/list.go` and of the parts of Go's `time` package
it calls, followed by theorems about the time window (`yStart`, `yEnd`), the
name lookup (`getNameFromTags`) and the reporting loop (`Run`).

Conventions of the embedding:

* Go pointers that the source dereferences (`*tag.Key`, `*instance.InstanceId`,
  `*res.Values[0]`, ...) are `Option`s; dereferencing `none` is a run-time
  panic, which the embedding represents by `none` (in the pure parts) or by
  the exit status `Exit.panic` (in `Run`).
* `int`, `int64` and `uint64` values are unbounded integers: the programme
  only handles instants near the present, far from the 64-bit limits.
* `float64` metric values are never computed with, only copied and printed,
  so the embedding is parametric in the value type and its `%v` rendering
  (`Float64Model`).
-/

namespace Awsmonitor

/-! ## Go's `time` package (the parts used by `yStart` and `yEnd`) -/

namespace time

/-- Go: `secondsPerDay`. -/
def secondsPerDay : Int := 86400
/-- Go: `daysPer400Years = 365*400 + 97`. -/
def daysPer400Years : Int := 146097
/-- Go: `daysPer100Years = 365*100 + 24`. -/
def daysPer100Years : Int := 36524
/-- Go: `daysPer4Years = 365*4 + 1`. -/
def daysPer4Years : Int := 1461
/-- Go: `absoluteZeroYear`, the year of the absolute epoch. -/
def absoluteZeroYear : Int := -292277022399
/-- Go: `unixToInternal + internalToAbsolute`, seconds from the absolute epoch
to the Unix epoch. -/
def unixToAbsolute : Int := 9223372028715321600
/-- Go: `alpha = -1 << 63`, the start of the first zone span. -/
def alpha : Int := -9223372036854775808
/-- Go: `omega = 1<<63 - 1`, the end of the last zone span. -/
def omega : Int := 9223372036854775807

/-- Go: `time.Duration`, a count of nanoseconds. -/
abbrev Duration := Int
/-- Go: `time.Nanosecond`. -/
def Nanosecond : Duration := 1
/-- Go: `time.Second`. -/
def Second : Duration := 1000000000
/-- Go: `time.Hour`. -/
def Hour : Duration := 3600 * Second

/-- One zone transition: from the UTC second `when` on, the zone's offset
(seconds east of UTC) is `offset`. Go stores an index into the zone table
here; the embedding stores the offset found there. -/
structure zoneTrans where
  when : Int
  offset : Int
  deriving DecidableEq, Repr

/-- Go: `time.Location`: the offset in effect before the first transition and
the transitions in ascending order of `when`. -/
structure Location where
  first : Int
  tx : List zoneTrans
  deriving DecidableEq, Repr

/-- The result of `Location.lookup`: the offset in effect and the half-open
span `[zstart, zend)` of UTC seconds over which it is in effect. -/
structure zoneSpan where
  offset : Int
  zstart : Int
  zend : Int
  deriving DecidableEq, Repr

/-- Scan of the transition table from its front: `offset` and `zstart` are the
offset and start of the span in effect before the transitions still to read. -/
def lookupFrom (offset zstart : Int) : List zoneTrans → Int → zoneSpan
  | [], _ => ⟨offset, zstart, omega⟩
  | tr :: rest, sec =>
    if sec < tr.when then ⟨offset, zstart, tr.when⟩
    else lookupFrom tr.offset tr.when rest sec

/-- Go: `(*Location).lookup`: the zone span in effect at the UTC second `sec`,
that of the last transition with `when ≤ sec` (Go finds it by binary search in
the sorted table). -/
def Location.lookup (l : Location) (sec : Int) : zoneSpan :=
  lookupFrom l.first alpha l.tx sec

/-- Go: `time.Time`: an instant (Unix seconds and nanoseconds within the
second) together with the location it is displayed in. -/
structure Time where
  sec : Int
  nsec : Int
  loc : Location
  deriving DecidableEq, Repr

/-- Go: `norm(hi, lo, base)`: carries `lo` into `hi` so that `0 ≤ lo < base`. -/
def norm (hi lo base : Int) : Int × Int :=
  let p : Int × Int :=
    if lo < 0 then
      let n := Int.tdiv (-lo - 1) base + 1
      (hi - n, lo + n * base)
    else (hi, lo)
  if p.2 ≥ base then
    let n := Int.tdiv p.2 base
    (p.1 + n, p.2 - n * base)
  else p

/-- Go: `isLeap(year)`. -/
def isLeap (year : Int) : Bool :=
  Int.tmod year 4 == 0 && (Int.tmod year 100 != 0 || Int.tmod year 400 == 0)

/-- Go: the table `daysBefore`: days in a non-leap year before month `m + 1`. -/
def daysBefore (m : Int) : Int :=
  [0, 31, 59, 90, 120, 151, 181, 212, 243, 273, 304, 334, 365].getD m.toNat 0

/-- The part of Go's `time.Date` that counts the days from the absolute epoch
to the (normalised) civil date `year`-`month`-`day`. -/
def daysSinceAbsolute (year month day : Int) : Int :=
  let y := year - absoluteZeroYear
  let n := y / 400
  let y := y - 400 * n
  let d := daysPer400Years * n
  let n := y / 100
  let y := y - 100 * n
  let d := d + daysPer100Years * n
  let n := y / 4
  let y := y - 4 * n
  let d := d + daysPer4Years * n
  let n := y
  let d := d + 365 * n
  let d := d + daysBefore (month - 1)
  let d := if isLeap year && decide (month ≥ 3) then d + 1 else d
  d + (day - 1)

/-- The part of Go's `time.Date` before the zone adjustment: the civil date
and clock reading taken as if it were UTC, in Unix seconds, with the
normalised nanoseconds. -/
def civilUnix (year month day hour min sec nsec : Int) : Int × Int :=
  let m := month - 1
  let ym := norm year m 12
  let year := ym.1
  let month := ym.2 + 1
  let sn := norm sec nsec 1000000000
  let ms := norm min sn.1 60
  let hm := norm hour ms.1 60
  let dh := norm day hm.1 24
  let d := daysSinceAbsolute year month dh.1
  let abs := d * secondsPerDay + (dh.2 * 3600 + hm.2 * 60 + ms.2)
  (abs - unixToAbsolute, sn.2)

/-- The zone adjustment at the end of Go's `time.Date`: `unix` is the civil
time read as UTC; the result is the UTC second that displays as that civil
time in `loc`. -/
def zoneAdjust (loc : Location) (unix : Int) : Int :=
  let z := loc.lookup unix
  if z.offset ≠ 0 then
    let utc := unix - z.offset
    let offset :=
      if utc < z.zstart ∨ utc ≥ z.zend then (loc.lookup utc).offset else z.offset
    unix - offset
  else unix

/-- Go: `time.Date(year, month, day, hour, min, sec, nsec, loc)`. -/
def Date (year month day hour min sec nsec : Int) (loc : Location) : Time :=
  let c := civilUnix year month day hour min sec nsec
  ⟨zoneAdjust loc c.1, c.2, loc⟩

/-- Go: `Time.abs`: seconds since the absolute epoch of the local clock
reading of `t`. -/
def Time.abs (t : Time) : Int :=
  t.sec + (t.loc.lookup t.sec).offset + unixToAbsolute

/-- Go: `absDate(abs, true)`: the civil date `(year, month, day)` of an
absolute time. -/
def absDate (abs : Int) : Int × Int × Int :=
  let d := abs / secondsPerDay
  let n := d / daysPer400Years
  let y := 400 * n
  let d := d - daysPer400Years * n
  let n := d / daysPer100Years
  let n := n - n / 4
  let y := y + 100 * n
  let d := d - daysPer100Years * n
  let n := d / daysPer4Years
  let y := y + 4 * n
  let d := d - daysPer4Years * n
  let n := d / 365
  let n := n - n / 4
  let y := y + n
  let d := d - 365 * n
  let year := y + absoluteZeroYear
  let day := d
  if isLeap year && decide (day = 31 + 29 - 1) then (year, 2, 29)
  else
    let day := if isLeap year && decide (day > 31 + 29 - 1) then day - 1 else day
    let month := day / 31
    let stop := daysBefore (month + 1)
    if day ≥ stop then (year, month + 2, day - stop + 1)
    else (year, month + 1, day - daysBefore month + 1)

/-- Go: `Time.Date`: the civil date of `t` in its location. -/
def Time.Date (t : Time) : Int × Int × Int := absDate t.abs

/-- Go: `Time.Clock`: hour, minute and second of `t` in its location. -/
def Time.Clock (t : Time) : Int × Int × Int :=
  let sec := t.abs % secondsPerDay
  let hour := sec / 3600
  let sec := sec - hour * 3600
  let min := sec / 60
  (hour, min, sec - min * 60)

/-- Go: `Time.In(loc)`: the same instant displayed in `loc`. -/
def Time.In (t : Time) (loc : Location) : Time := { t with loc := loc }

/-- Go: `Time.Add(d)`. -/
def Time.Add (t : Time) (d : Duration) : Time :=
  let dsec := Int.tdiv d 1000000000
  let nsec := t.nsec + Int.tmod d 1000000000
  if nsec ≥ 1000000000 then { t with sec := t.sec + (dsec + 1), nsec := nsec - 1000000000 }
  else if nsec < 0 then { t with sec := t.sec + (dsec - 1), nsec := nsec + 1000000000 }
  else { t with sec := t.sec + dsec, nsec := nsec }

/-- Go: `Time.Sub(u)`: the duration `t - u` in nanoseconds. -/
def Time.Sub (t u : Time) : Duration :=
  (t.sec - u.sec) * Second + (t.nsec - u.nsec)

/-- The zone `America/New_York` as the time zone database gives it for the
years 2023 to 2025: Eastern Standard Time (UTC-5) with Eastern Daylight Time
(UTC-4) from the second Sunday of March, 07:00 UTC, to the first Sunday of
November, 06:00 UTC. -/
def newYork : Location :=
  { first := -18000
    tx := [ ⟨1678604400, -14400⟩, ⟨1699164000, -18000⟩,
            ⟨1710054000, -14400⟩, ⟨1730613600, -18000⟩,
            ⟨1741503600, -14400⟩, ⟨1762063200, -18000⟩ ] }

/-- Midnight of the local date of `t`, read as a UTC clock reading, in Unix
seconds: what `time.Date` computes for that midnight before the zone
adjustment. -/
def Time.midnightCivil (t : Time) : Int :=
  (civilUnix t.Date.1 t.Date.2.1 t.Date.2.2 0 0 0 0).1

/-- The zone of `t` has the one offset `o` throughout the local day of `t`. The
span is taken between the earlier and the later of the local clock reading
and its reading as UTC, which is where `time.Date` looks the zone up. -/
def Time.offsetSteady (t : Time) (o : Int) : Prop :=
  ∀ u, min t.midnightCivil (t.midnightCivil - o) ≤ u →
    u ≤ max t.midnightCivil (t.midnightCivil - o) + 86399 → (t.loc.lookup u).offset = o

/-- Go: `time.UTC`. -/
def UTC : time.Location := { first := 0, tx := [] }

/-- Go: `Time.Location`. -/
def Time.Location (t : Time) : time.Location := t.loc

end time

open time

/-! ## `cmd/list.go` -/

/-- Source: `yStart gets yesterday start time`. -/
def yStart (t : Time) : Time :=
  let (year, month, day) := t.Date
  let date := Date year month day 0 0 0 0 t.Location
  let date := date.Add (-24 * Hour)
  date

/-- Source: `yStart gets yesterday end time` (the comment on `yEnd`). -/
def yEnd (t : Time) : Time :=
  let (year, month, day) := t.Date
  let date := Date year month day 23 59 59 999999999 t.Location
  let date := date.Add (-24 * Hour)
  date

/-! ### The AWS SDK records the command reads and builds

Every field of an SDK record is a pointer, and so are the elements of the
SDK's slices; the command dereferences them without a nil check. -/

/-- SDK: `ec2.Tag`. -/
structure Tag where
  Key : Option String
  Value : Option String
  deriving DecidableEq, Repr

/-- SDK: `ec2.InstanceState` (the field the command reads). -/
structure InstanceState where
  Name : Option String
  deriving DecidableEq, Repr

/-- SDK: `ec2.Instance` (the fields the command reads). -/
structure Instance where
  InstanceId : Option String
  InstanceType : Option String
  State : Option InstanceState
  PrivateIpAddress : Option String
  Tags : List (Option Tag)
  deriving DecidableEq, Repr

/-- SDK: `ec2.Reservation`. -/
structure Reservation where
  Instances : List (Option Instance)
  deriving DecidableEq, Repr

/-- SDK: `ec2.DescribeInstancesOutput`. -/
structure DescribeInstancesOutput where
  Reservations : List (Option Reservation)
  deriving DecidableEq, Repr

/-- SDK: `cloudwatch.Dimension`, as the command fills it. -/
structure Dimension where
  Name : String
  Value : String
  deriving DecidableEq, Repr

/-- SDK: `cloudwatch.Metric`, as the command fills it. -/
structure Metric where
  Namespace : String
  MetricName : String
  Dimensions : List Dimension
  deriving DecidableEq, Repr

/-- SDK: `cloudwatch.MetricStat`, as the command fills it. -/
structure MetricStat where
  Stat : String
  Period : Int
  Metric : Awsmonitor.Metric
  deriving DecidableEq, Repr

/-- SDK: `cloudwatch.MetricDataQuery`, as the command fills it. -/
structure MetricDataQuery where
  Id : String
  MetricStat : Awsmonitor.MetricStat
  deriving DecidableEq, Repr

/-- SDK: `cloudwatch.GetMetricDataInput`, as the command fills it. -/
structure GetMetricDataInput where
  StartTime : Time
  EndTime : Time
  MetricDataQueries : List MetricDataQuery
  deriving DecidableEq, Repr

/-- SDK: `cloudwatch.MetricDataResult` (the fields the command reads), with
`float64` values of type `F`. -/
structure MetricDataResult (F : Type) where
  Id : Option String
  Values : List (Option F)
  deriving DecidableEq, Repr

/-- SDK: `cloudwatch.GetMetricDataOutput`. -/
structure GetMetricDataOutput (F : Type) where
  MetricDataResults : List (Option (MetricDataResult F))
  deriving DecidableEq, Repr

/-- What the command uses of `float64`: the zero value of an uninitialised
variable and the rendering by `fmt`'s `%v`, which prints the zero value as
`0`. -/
structure Float64Model (F : Type) where
  zero : F
  fmtV : F → String
  fmtV_zero : fmtV zero = "0"

/-- Source: `getNameFromTags is a helper to grab the instance name from the
array of tags`. `none` is the panic of dereferencing a nil tag, key or value. -/
def getNameFromTags : List (Option Tag) → Option String
  | [] => some ""
  | tag :: tags => do
    let tag ← tag
    let key ← tag.Key
    if key = "Name" then tag.Value else getNameFromTags tags

/-- The `GetMetricDataInput` literal of `Run`, for the window
`yesterdayStart`, `yesterdayEnd` and the instance id `instanceId`. -/
def metricDataInput (yesterdayStart yesterdayEnd : Time) (instanceId : String) :
    GetMetricDataInput :=
  { StartTime := yesterdayStart
    EndTime := yesterdayEnd
    MetricDataQueries :=
      [ { Id := "cw1"
          MetricStat :=
            { Stat := "Sum", Period := 86400
              Metric :=
                { Namespace := "AWS/EC2", MetricName := "NetworkIn"
                  Dimensions := [⟨"InstanceId", instanceId⟩] } } },
        { Id := "cw2"
          MetricStat :=
            { Stat := "Sum", Period := 86400
              Metric :=
                { Namespace := "AWS/EC2", MetricName := "NetworkOut"
                  Dimensions := [⟨"InstanceId", instanceId⟩] } } } ] }

/-- One iteration of the loop over `result.MetricDataResults` in `Run`:
`acc` holds `netIn` and `netOut`. -/
def scanResult {F : Type} (res : Option (MetricDataResult F)) (acc : F × F) : Option (F × F) := do
  let res ← res
  let id ← res.Id
  let netIn ← if id = "cw1" ∧ res.Values.length > 0 then res.Values[0]?.join else some acc.1
  let netOut ← if id = "cw2" ∧ res.Values.length > 0 then res.Values[0]?.join else some acc.2
  some (netIn, netOut)

/-- The loop over `result.MetricDataResults` in `Run`. -/
def scanResults {F : Type} : List (Option (MetricDataResult F)) → F × F → Option (F × F)
  | [], acc => some acc
  | res :: rest, acc => do
    let acc ← scanResult res acc
    scanResults rest acc

/-- The `fmt.Printf("%v,%v,%v,%v,%v,%v,%v\n", ...)` call of `Run`: the
arguments are evaluated in order, then the line is formatted. -/
def formatRow {F : Type} (m : Float64Model F) (inst : Instance) (netIn netOut : F) :
    Option String := do
  let name ← getNameFromTags inst.Tags
  let type ← inst.InstanceType
  let state ← inst.State
  let stateName ← state.Name
  let id ← inst.InstanceId
  let ip ← inst.PrivateIpAddress
  some (name ++ "," ++ type ++ "," ++ stateName ++ "," ++ id ++ "," ++ ip ++ ","
    ++ m.fmtV netIn ++ "," ++ m.fmtV netOut ++ "\n")

/-- The part of the loop body of `Run` after a successful metric query: the
scan of the response starting from `netIn = netOut = 0`, then the row. -/
def instanceRow {F : Type} (m : Float64Model F) (inst : Instance)
    (result : GetMetricDataOutput F) : Option String := do
  let acc ← scanResults result.MetricDataResults (m.zero, m.zero)
  formatRow m inst acc.1 acc.2

/-- An error value returned by the SDK or by `time.LoadLocation`. -/
abbrev Err := String

/-- What `Run` reads from outside the process. -/
structure Env (F : Type) where
  /-- Go: `time.LoadLocation(name)`. -/
  LoadLocation : String → Except Err Location
  /-- Go: `time.Now()`: `Now k` is what the `k`-th reading of the clock returns
  (counted from 0). -/
  Now : Nat → Time
  /-- SDK: `session.NewSessionWithOptions(...)`. -/
  NewSession : Except Err Unit
  /-- SDK: `ec2Svc.DescribeInstances(nil)`. -/
  DescribeInstances : Except Err DescribeInstancesOutput
  /-- SDK: `cSvc.GetMetricData(input)`: `GetMetricData k input` is the answer to the
  `k`-th call (counted from 0) when it is made with `input`. -/
  GetMetricData : Nat → GetMetricDataInput → Except Err (GetMetricDataOutput F)

/-- How the process ends. -/
inductive Exit where
  /-- Normal end: `Run` returns, exit status 0. -/
  | ok
  /-- Go: `log.Fatal(err)`: `err` is written to the log and the process exits with
  status 1. -/
  | fatal (err : Err)
  /-- A run-time panic (nil dereference, or `session.Must` on an error): exit
  status 2. -/
  | panic
  deriving DecidableEq, Repr

/-- What the process has done so far: the writes to standard output (one
entry per `Println` or `Printf` call) and the metric queries issued. -/
structure Trace where
  stdout : List String
  queries : List GetMetricDataInput
  deriving DecidableEq, Repr

/-- The body of the inner loop of `Run` for one element of
`reservations.Instances`: the new trace, and how the process ends if it ends
in this iteration. -/
def processInstance {F : Type} (m : Float64Model F) (env : Env F)
    (yesterdayStart yesterdayEnd : Time) (inst : Option Instance) (tr : Trace) :
    Trace × Option Exit :=
  match inst with
  | none => (tr, some Exit.panic)
  | some inst =>
    match inst.InstanceId with
    | none => (tr, some Exit.panic)
    | some instanceId =>
      let input := metricDataInput yesterdayStart yesterdayEnd instanceId
      let tr1 : Trace := { tr with queries := tr.queries ++ [input] }
      match env.GetMetricData tr.queries.length input with
      | .error err => (tr1, some (Exit.fatal err))
      | .ok result =>
        match instanceRow m inst result with
        | none => (tr1, some Exit.panic)
        | some row => ({ tr1 with stdout := tr1.stdout ++ [row] }, none)

/-- The inner loop of `Run`: `for _, instance := range reservations.Instances`. -/
def instancesLoop {F : Type} (m : Float64Model F) (env : Env F)
    (yesterdayStart yesterdayEnd : Time) : List (Option Instance) → Trace → Trace × Option Exit
  | [], tr => (tr, none)
  | inst :: rest, tr =>
    match processInstance m env yesterdayStart yesterdayEnd inst tr with
    | (tr1, none) => instancesLoop m env yesterdayStart yesterdayEnd rest tr1
    | (tr1, some e) => (tr1, some e)

/-- The outer loop of `Run`: `for _, reservations := range instances.Reservations`. -/
def reservationsLoop {F : Type} (m : Float64Model F) (env : Env F)
    (yesterdayStart yesterdayEnd : Time) : List (Option Reservation) → Trace → Trace × Option Exit
  | [], tr => (tr, none)
  | none :: _, tr => (tr, some Exit.panic)
  | some reservations :: rest, tr =>
    match instancesLoop m env yesterdayStart yesterdayEnd reservations.Instances tr with
    | (tr1, none) => reservationsLoop m env yesterdayStart yesterdayEnd rest tr1
    | (tr1, some e) => (tr1, some e)

/-- The header line written by `fmt.Println`. -/
def header : String := "Name,Type,State,ID,IP,NetworkIn,NetworkOut\n"

/-- The outcome of a run: the trace and how the process ended. -/
structure Outcome where
  stdout : List String
  queries : List GetMetricDataInput
  exit : Exit
  deriving DecidableEq, Repr

/-- Source: `listCmd.Run`. -/
def Run {F : Type} (m : Float64Model F) (env : Env F) : Outcome :=
  match env.LoadLocation "America/New_York" with
  | .error err => ⟨[], [], Exit.fatal err⟩
  | .ok ny =>
    let yesterdayStart := yStart ((env.Now 0).In ny)
    let yesterdayEnd := yEnd ((env.Now 1).In ny)
    match env.NewSession with
    | .error _ => ⟨[], [], Exit.panic⟩
    | .ok _ =>
      match env.DescribeInstances with
      | .error err => ⟨[], [], Exit.fatal err⟩
      | .ok instances =>
        match reservationsLoop m env yesterdayStart yesterdayEnd instances.Reservations
            ⟨[header], []⟩ with
        | (tr, none) => ⟨tr.stdout, tr.queries, Exit.ok⟩
        | (tr, some e) => ⟨tr.stdout, tr.queries, e⟩

/-! ### The responses of the two services as the interface describes them

The inventory is ordered groups of instance records with the fields
`instanceId`, `instanceType`, `state.name`, `privateIpAddress` and
`tags[{key, value}]`; a metrics response is a list of series, each a query
label with its values in time order. These are the SDK records in which no
pointer is nil. -/

/-- A tag: a key and a value. -/
structure TagRecord where
  key : String
  value : String
  deriving DecidableEq, Repr

/-- An instance record of the inventory. -/
structure InstanceRecord where
  instanceId : String
  instanceType : String
  stateName : String
  privateIpAddress : String
  tags : List TagRecord
  deriving DecidableEq, Repr

/-- A series of a metrics response. -/
structure Series (F : Type) where
  label : String
  values : List F
  deriving DecidableEq, Repr

/-- The SDK tag of a tag record. -/
def TagRecord.toTag (t : TagRecord) : Option Tag := some ⟨some t.key, some t.value⟩

/-- The SDK instance of an instance record. -/
def InstanceRecord.toInstance (i : InstanceRecord) : Instance :=
  { InstanceId := some i.instanceId
    InstanceType := some i.instanceType
    State := some ⟨some i.stateName⟩
    PrivateIpAddress := some i.privateIpAddress
    Tags := i.tags.map TagRecord.toTag }

/-- The SDK output of an inventory given as groups of instance records. -/
def inventoryResponse (groups : List (List InstanceRecord)) : DescribeInstancesOutput :=
  ⟨groups.map fun g => some ⟨g.map fun i => some i.toInstance⟩⟩

/-- The SDK result of a series. -/
def Series.toResult {F : Type} (s : Series F) : Option (MetricDataResult F) :=
  some ⟨some s.label, s.values.map some⟩

/-- The SDK output of a metrics response given as a list of series. -/
def metricsResponse {F : Type} (series : List (Series F)) : GetMetricDataOutput F :=
  ⟨series.map Series.toResult⟩

/-- The `float64` values that are whole numbers from 0 to 999999, each
represented by that number: `%v` prints them as the decimal integer (from
1000000 on it switches to the exponent form). -/
def wholeNumbers : Float64Model (Fin 1000000) :=
  { zero := 0
    fmtV := fun v => Nat.repr v.val
    fmtV_zero := by decide }

/-- The display name of an instance record: the value of its first tag with
the key `Name`, the empty string without one. -/
def InstanceRecord.name (i : InstanceRecord) : String :=
  match i.tags.find? fun t => decide (t.key = "Name") with
  | some t => t.value
  | none => ""

/-- The value the scan of a response leaves in the variable of the query label
`label`, starting from `init`: each series carrying the label that has a value
overwrites it with its first value. -/
def recorded {F : Type} (label : String) : List (Series F) → F → F
  | [], init => init
  | s :: rest, init =>
    recorded label rest (if s.label = label then s.values.headD init else init)

/-- The report row of an instance record and its metrics response, as the
interface gives it: `<name>,<type>,<state>,<id>,<ip>,<networkInSum>,<networkOutSum>`
and a newline. -/
def reportRow {F : Type} (m : Float64Model F) (i : InstanceRecord) (series : List (Series F)) :
    String :=
  i.name ++ "," ++ i.instanceType ++ "," ++ i.stateName ++ "," ++ i.instanceId ++ ","
    ++ i.privateIpAddress ++ "," ++ m.fmtV (recorded "cw1" series m.zero) ++ ","
    ++ m.fmtV (recorded "cw2" series m.zero) ++ "\n"

/-- The elements the two loops of `Run` visit, in order. A nil reservation
counts as one nil instance: the loop panics on reaching either. -/
def allInstances (instances : DescribeInstancesOutput) : List (Option Instance) :=
  instances.Reservations.flatMap fun r =>
    match r with
    | none => [none]
    | some reservations => reservations.Instances

/-- The instance has its id, type, state name and private address. -/
def Instance.fieldsPresent (i : Instance) : Prop :=
  i.InstanceId.isSome ∧ i.InstanceType.isSome ∧ (i.State.bind InstanceState.Name).isSome ∧
    i.PrivateIpAddress.isSome

/-- Every tag of the list has a key, and the first tag with the key `Name`,
if there is one, has a value. -/
def tagsReadable (tags : List (Option Tag)) : Prop :=
  (∀ tag ∈ tags, (tag.bind Tag.Key).isSome) ∧
    ∀ tag, tags.find? (fun tag => decide (tag.bind Tag.Key = some "Name")) = some tag →
      (tag.bind Tag.Value).isSome

/-- Every result series of the response has a label. -/
def labelsPresent {F : Type} (result : GetMetricDataOutput F) : Prop :=
  ∀ res ∈ result.MetricDataResults, (res.bind MetricDataResult.Id).isSome

/-- Every result series labelled `cw1` or `cw2` that has values has its first
value (the pointer `res.Values[0]` is not nil). -/
def firstValuesPresent {F : Type} (result : GetMetricDataOutput F) : Prop :=
  ∀ res, some res ∈ result.MetricDataResults → res.Id = some "cw1" ∨ res.Id = some "cw2" →
    ∀ v, res.Values[0]? = some v → v.isSome

/-- A result series as the SDK decodes it from the service's answer: the label
is a pointer that may be nil, and every member of the value list is a value
behind a freshly allocated pointer (a member the decoder cannot read makes the
call fail with an error instead). -/
structure DecodedResult (F : Type) where
  Id : Option String
  Values : List F
  deriving DecidableEq, Repr

/-- The SDK record of a decoded result series. -/
def DecodedResult.toResult {F : Type} (r : DecodedResult F) : MetricDataResult F :=
  ⟨r.Id, r.Values.map some⟩

/-- The SDK output holding the decoded result series `results`. -/
def decodedOutput {F : Type} (results : List (Option (DecodedResult F))) :
    GetMetricDataOutput F :=
  ⟨results.map fun r => r.map DecodedResult.toResult⟩

/-- The metric query `Run` issues for an instance record when the zone is `ny`. -/
def queryFor {F : Type} (env : Env F) (ny : Location) (i : InstanceRecord) : GetMetricDataInput :=
  metricDataInput (yStart ((env.Now 0).In ny)) (yEnd ((env.Now 1).In ny)) i.instanceId

/-! ### Concrete runs -/

/-- Noon of 15 June 2024 in New York (16:00 UTC). -/
def noonJune15 : Time := ⟨1718467200, 0, newYork⟩

/-- Noon of 10 March 2024 in New York (16:00 UTC), the day daylight saving
time begins. -/
def noonMarch10 : Time := ⟨1710086400, 0, newYork⟩

/-- Noon of 11 March 2024 in New York (16:00 UTC), the day after daylight
saving time begins. -/
def noonMarch11 : Time := ⟨1710172800, 0, newYork⟩

/-- The instance of the end-to-end scenario. -/
def web1 : InstanceRecord :=
  { instanceId := "i-1", instanceType := "t2.micro", stateName := "running"
    privateIpAddress := "10.0.0.5", tags := [⟨"Name", "web1"⟩] }

/-- A stopped instance without a `Name` tag. -/
def unnamed : InstanceRecord :=
  { instanceId := "i-2", instanceType := "m5.large", stateName := "stopped"
    privateIpAddress := "10.0.0.6", tags := [⟨"env", "prod"⟩] }

/-- An instance with two `Name` tags. -/
def db1 : InstanceRecord :=
  { instanceId := "i-3", instanceType := "r5.xlarge", stateName := "running"
    privateIpAddress := "10.0.0.7", tags := [⟨"owner", "ops"⟩, ⟨"Name", "db1"⟩, ⟨"Name", "old"⟩] }

/-- The instance `db1` with one more tag, after its `Name` tags, that has a key
and no value. -/
def db1Extra : Instance :=
  { db1.toInstance with Tags := db1.toInstance.Tags ++ [some ⟨some "x", none⟩] }

/-- The end-to-end scenario: the inventory is the one instance `web1`, and the
metrics service answers `NetworkIn = 1000`, `NetworkOut = 500`. The clock
reads noon of 15 June 2024. -/
def scenarioEnv : Env (Fin 1000000) :=
  { LoadLocation := fun _ => .ok newYork
    Now := fun _ => ⟨1718467200, 0, UTC⟩
    NewSession := .ok ()
    DescribeInstances := .ok (inventoryResponse [[web1]])
    GetMetricData := fun _ _ => .ok (metricsResponse [⟨"cw1", [1000]⟩, ⟨"cw2", [500]⟩]) }

/-- The answers of the metrics service in `fleetEnv`: values for the first
query, two empty series afterwards. -/
def fleetAnswer (k : Nat) : List (Series (Fin 1000000)) :=
  if k = 0 then [⟨"cw2", [500, 7]⟩, ⟨"cw1", [1000]⟩] else [⟨"cw1", []⟩, ⟨"cw2", []⟩]

/-- A run over three instances in two reservations, every query answered. -/
def fleetEnv : Env (Fin 1000000) :=
  { LoadLocation := fun _ => .ok newYork
    Now := fun _ => ⟨1718467200, 0, UTC⟩
    NewSession := .ok ()
    DescribeInstances := .ok (inventoryResponse [[web1], [unnamed, db1]])
    GetMetricData := fun k _ => .ok (metricsResponse (fleetAnswer k)) }

/-- The run of `fleetEnv` with a metrics service that answers the first query
and fails from the second on. -/
def throttledEnv : Env (Fin 1000000) :=
  { fleetEnv with
    GetMetricData := fun k _ =>
      if k = 0 then .ok (metricsResponse (fleetAnswer 0)) else .error "Throttling" }

/-- The end-to-end scenario with the clock read just before and just after
local midnight: 23:59:59.999999999 of 15 June 2024 in New York, then
00:00:00 of 16 June. -/
def midnightEnv : Env (Fin 1000000) :=
  { scenarioEnv with
    Now := fun k => if k = 0 then ⟨1718510399, 999999999, UTC⟩ else ⟨1718510400, 0, UTC⟩ }

/-- A metrics response with a series without values, a series under another
label, and a series with two values. -/
def mixedOutput : GetMetricDataOutput (Fin 1000000) :=
  decodedOutput [some ⟨some "cw1", []⟩, some ⟨some "other", [3]⟩, some ⟨some "cw2", [500, 7]⟩]

/-- The end-to-end scenario with the metrics service answering `mixedOutput`. -/
def mixedEnv : Env (Fin 1000000) :=
  { scenarioEnv with GetMetricData := fun _ _ => .ok mixedOutput }

/-! ## Theorems -/

theorem getNameFromTags_toTag_cons (t : TagRecord) (ts : List TagRecord) :
    getNameFromTags ((t :: ts).map TagRecord.toTag) =
      if t.key = "Name" then some t.value else getNameFromTags (ts.map TagRecord.toTag) := by
  simp [getNameFromTags, TagRecord.toTag]

theorem getNameFromTags_no_Name (ts : List TagRecord) (h : ∀ x ∈ ts, x.key ≠ "Name") :
    getNameFromTags (ts.map TagRecord.toTag) = some "" := by
  induction ts with
  | nil => simp [getNameFromTags]
  | cons t ts ih =>
    rw [getNameFromTags_toTag_cons, if_neg (h t (List.mem_cons_self _ _))]
    exact ih fun x hx => h x (List.mem_cons_of_mem _ hx)

theorem getNameFromTags_skip (pre rest : List TagRecord) (h : ∀ x ∈ pre, x.key ≠ "Name") :
    getNameFromTags ((pre ++ rest).map TagRecord.toTag) =
      getNameFromTags (rest.map TagRecord.toTag) := by
  induction pre with
  | nil => rfl
  | cons t ts ih =>
    rw [List.cons_append, getNameFromTags_toTag_cons, if_neg (h t (List.mem_cons_self _ _))]
    exact ih fun x hx => h x (List.mem_cons_of_mem _ hx)

theorem getNameFromTags_filter (ts : List TagRecord) :
    getNameFromTags (ts.map TagRecord.toTag) =
      getNameFromTags ((ts.filter fun x => decide (x.key = "Name")).map TagRecord.toTag) := by
  induction ts with
  | nil => rfl
  | cons t ts ih =>
    by_cases hk : t.key = "Name"
    · rw [List.filter_cons_of_pos (by simpa using hk), getNameFromTags_toTag_cons,
        getNameFromTags_toTag_cons, if_pos hk, if_pos hk]
    · rw [List.filter_cons_of_neg (by simpa using hk), getNameFromTags_toTag_cons, if_neg hk]
      exact ih

/-- C5: for every list of tags (each a key and a value), `getNameFromTags`
returns the value of the first tag, in list order, whose key is exactly
`Name`, whatever follows it; it returns the empty string when no tag has the
key `Name` (the empty list included); and two tag lists with the same `Name`
tags in the same order give the same result, so adding, removing or reordering
tags whose key is not `Name` does not change it. -/
theorem getNameFromTags_first_Name_wins (tags : List TagRecord) :
    (∀ pre t post, tags = pre ++ t :: post → (∀ x ∈ pre, x.key ≠ "Name") → t.key = "Name" →
        getNameFromTags (tags.map TagRecord.toTag) = some t.value) ∧
    ((∀ x ∈ tags, x.key ≠ "Name") → getNameFromTags (tags.map TagRecord.toTag) = some "") ∧
    (∀ tags' : List TagRecord,
        (tags'.filter fun x => decide (x.key = "Name")) =
          (tags.filter fun x => decide (x.key = "Name")) →
        getNameFromTags (tags'.map TagRecord.toTag) = getNameFromTags (tags.map TagRecord.toTag)) := by
  refine ⟨?_, getNameFromTags_no_Name tags, ?_⟩
  · intro pre t post htags hpre hkey
    rw [htags, getNameFromTags_skip pre _ hpre, getNameFromTags_toTag_cons, if_pos hkey]
  · intro tags' h
    rw [getNameFromTags_filter tags', getNameFromTags_filter tags, h]

/-- Witness of C5: the first of two `Name` tags wins, a list without a `Name` tag
gives the empty string, and moving or adding other tags changes nothing. -/
theorem getNameFromTags_first_Name_wins_witness :
    getNameFromTags ([⟨"env", "prod"⟩, ⟨"Name", "web1"⟩, ⟨"Name", "web2"⟩].map TagRecord.toTag)
        = some "web1" ∧
      getNameFromTags ([⟨"env", "prod"⟩, ⟨"owner", "ops"⟩].map TagRecord.toTag) = some "" ∧
      getNameFromTags ([⟨"Name", "web1"⟩, ⟨"owner", "ops"⟩, ⟨"Name", "web2"⟩, ⟨"env", "prod"⟩].map
          TagRecord.toTag) =
        getNameFromTags ([⟨"env", "prod"⟩, ⟨"Name", "web1"⟩, ⟨"Name", "web2"⟩].map TagRecord.toTag) :=
  ⟨(getNameFromTags_first_Name_wins _).1 [⟨"env", "prod"⟩] ⟨"Name", "web1"⟩ [⟨"Name", "web2"⟩] rfl
      (by decide) rfl,
    (getNameFromTags_first_Name_wins [⟨"env", "prod"⟩, ⟨"owner", "ops"⟩]).2.1 (by decide),
    (getNameFromTags_first_Name_wins _).2.2 _ (by decide)⟩


theorem scanResult_toResult {F : Type} (s : Series F) (acc : F × F) :
    scanResult s.toResult acc =
      some (if s.label = "cw1" then s.values.headD acc.1 else acc.1,
            if s.label = "cw2" then s.values.headD acc.2 else acc.2) := by
  cases hv : s.values with
  | nil => simp [scanResult, Series.toResult, hv]
  | cons v vs =>
    by_cases h1 : s.label = "cw1" <;> by_cases h2 : s.label = "cw2" <;>
      simp [scanResult, Series.toResult, hv, h1, h2]

theorem scanResults_metricsResponse {F : Type} (series : List (Series F)) (acc : F × F) :
    scanResults (metricsResponse series).MetricDataResults acc =
      some (recorded "cw1" series acc.1, recorded "cw2" series acc.2) := by
  induction series generalizing acc with
  | nil => simp [metricsResponse, scanResults, recorded]
  | cons s rest ih =>
    have h := ih (if s.label = "cw1" then s.values.headD acc.1 else acc.1,
            if s.label = "cw2" then s.values.headD acc.2 else acc.2)
    simp only [metricsResponse, List.map_cons, scanResults, scanResult_toResult] at h ⊢
    simpa [recorded] using h

theorem recorded_of_no_value {F : Type} (label : String) (series : List (Series F)) (init : F)
    (h : ∀ s ∈ series, s.label = label → s.values = []) : recorded label series init = init := by
  induction series generalizing init with
  | nil => rfl
  | cons s rest ih =>
    have hrest : ∀ x ∈ rest, x.label = label → x.values = [] :=
      fun x hx => h x (List.mem_cons_of_mem _ hx)
    by_cases hl : s.label = label
    · simp [recorded, hl, h s (List.mem_cons_self _ _) hl, ih init hrest]
    · simp [recorded, hl, ih init hrest]

theorem recorded_of_single {F : Type} (label : String) (series : List (Series F)) (init : F)
    (s : Series F) (v : F) (vs : List F)
    (h : (series.filter fun x => decide (x.label = label)) = [s]) (hv : s.values = v :: vs) :
    recorded label series init = v := by
  induction series generalizing init with
  | nil => simp at h
  | cons x rest ih =>
    by_cases hl : x.label = label
    · rw [List.filter_cons_of_pos (by simpa using hl)] at h
      have hx : x = s := (List.cons.inj h).1
      have hnil : (rest.filter fun x => decide (x.label = label)) = [] := (List.cons.inj h).2
      have hno : ∀ y ∈ rest, y.label = label → y.values = [] := by
        intro y hy hyl
        have : y ∈ rest.filter fun x => decide (x.label = label) :=
          List.mem_filter.mpr ⟨hy, by simpa using hyl⟩
        rw [hnil] at this
        cases this
      subst hx
      simp [recorded, hl, hv, recorded_of_no_value label rest v hno]
    · rw [List.filter_cons_of_neg (by simpa using hl)] at h
      simp [recorded, hl, ih init h]

theorem formatRow_toInstance {F : Type} (m : Float64Model F) (i : InstanceRecord) (netIn netOut : F) :
    formatRow m i.toInstance netIn netOut =
      (getNameFromTags (i.tags.map TagRecord.toTag)).map fun name =>
        name ++ "," ++ i.instanceType ++ "," ++ i.stateName ++ "," ++ i.instanceId ++ ","
          ++ i.privateIpAddress ++ "," ++ m.fmtV netIn ++ "," ++ m.fmtV netOut ++ "\n" := by
  cases h : getNameFromTags (i.tags.map TagRecord.toTag) <;>
    simp [formatRow, InstanceRecord.toInstance, h]

theorem getNameFromTags_toTag (ts : List TagRecord) :
    getNameFromTags (ts.map TagRecord.toTag) =
      some (match ts.find? fun t => decide (t.key = "Name") with
        | some t => t.value
        | none => "") := by
  induction ts with
  | nil => rfl
  | cons t ts ih =>
    rw [getNameFromTags_toTag_cons]
    by_cases hk : t.key = "Name"
    · simp [hk, List.find?_cons]
    · simp [hk, List.find?_cons, ih]

theorem instanceRow_records {F : Type} (m : Float64Model F) (i : InstanceRecord)
    (series : List (Series F)) :
    instanceRow m i.toInstance (metricsResponse series) = some (reportRow m i series) := by
  simp [instanceRow, scanResults_metricsResponse, formatRow_toInstance, getNameFromTags_toTag,
    InstanceRecord.name, reportRow]

/-- C6: for every metrics response, if every series labelled `cw1` has an
empty value list (or no series carries the label), the inbound value the scan
records is the zero it started from; likewise for `cw2` and the outbound
value; and when all series are empty, the row of any instance ends with
`,0,0` before its newline. -/
theorem no_values_recorded_as_zero {F : Type} (m : Float64Model F) (series : List (Series F)) :
    ((∀ s ∈ series, s.label = "cw1" → s.values = []) →
      ∃ netOut, scanResults (metricsResponse series).MetricDataResults (m.zero, m.zero)
        = some (m.zero, netOut)) ∧
    ((∀ s ∈ series, s.label = "cw2" → s.values = []) →
      ∃ netIn, scanResults (metricsResponse series).MetricDataResults (m.zero, m.zero)
        = some (netIn, m.zero)) ∧
    ((∀ s ∈ series, s.values = []) →
      ∀ i : InstanceRecord, ∃ fields,
        instanceRow m i.toInstance (metricsResponse series) = some (fields ++ ",0,0" ++ "\n")) := by
  refine ⟨?_, ?_, ?_⟩
  · intro h
    exact ⟨_, by rw [scanResults_metricsResponse, recorded_of_no_value "cw1" series _ h]⟩
  · intro h
    exact ⟨_, by rw [scanResults_metricsResponse, recorded_of_no_value "cw2" series _ h]⟩
  · intro h i
    refine ⟨i.name ++ "," ++ i.instanceType ++ "," ++ i.stateName ++ "," ++ i.instanceId ++ ","
        ++ i.privateIpAddress, ?_⟩
    rw [instanceRow_records, reportRow, recorded_of_no_value "cw1" series _ (fun s hs _ => h s hs),
      recorded_of_no_value "cw2" series _ (fun s hs _ => h s hs), m.fmtV_zero]
    simp only [String.append_assoc]
    rfl

/-- C8: for every metrics response in which exactly one series `s` carries the
label `cw1` and `s` has a first value `v`, the inbound value the scan records
is `v`, whatever values follow `v`, wherever `s` sits in the response and
whatever the other series hold; likewise for `cw2` and the outbound value. -/
theorem single_series_first_value_recorded {F : Type} (m : Float64Model F)
    (series : List (Series F)) (s : Series F) (v : F) (vs : List F) :
    ((series.filter fun x => decide (x.label = "cw1")) = [s] → s.values = v :: vs →
      ∃ netOut, scanResults (metricsResponse series).MetricDataResults (m.zero, m.zero)
        = some (v, netOut)) ∧
    ((series.filter fun x => decide (x.label = "cw2")) = [s] → s.values = v :: vs →
      ∃ netIn, scanResults (metricsResponse series).MetricDataResults (m.zero, m.zero)
        = some (netIn, v)) := by
  refine ⟨?_, ?_⟩
  · intro h hv
    exact ⟨_, by rw [scanResults_metricsResponse, recorded_of_single "cw1" series _ s v vs h hv]⟩
  · intro h hv
    exact ⟨_, by rw [scanResults_metricsResponse, recorded_of_single "cw2" series _ s v vs h hv]⟩

theorem getNameFromTags_isSome (tags : List (Option Tag)) (h : tagsReadable tags) :
    (getNameFromTags tags).isSome := by
  induction tags with
  | nil => rfl
  | cons tag rest ih =>
    obtain ⟨hkeys, hname⟩ := h
    have hk := hkeys tag (List.mem_cons_self _ _)
    cases tag with
    | none => simp at hk
    | some t =>
      cases hkey : t.Key with
      | none => simp [hkey] at hk
      | some k =>
        by_cases hn : k = "Name"
        · have := hname (some t) (by simp [List.find?_cons, hkey, hn])
          simpa [getNameFromTags, hkey, hn] using this
        · have hrest : tagsReadable rest :=
            ⟨fun x hx => hkeys x (List.mem_cons_of_mem _ hx), fun x hx =>
              hname x (by simpa [List.find?_cons, hkey, hn] using hx)⟩
          simpa [getNameFromTags, hkey, hn] using ih hrest

theorem scanResults_isSome {F : Type} (results : List (Option (MetricDataResult F))) (acc : F × F)
    (hl : ∀ res ∈ results, (res.bind MetricDataResult.Id).isSome)
    (hv : ∀ res, some res ∈ results → res.Id = some "cw1" ∨ res.Id = some "cw2" →
      ∀ v, res.Values[0]? = some v → v.isSome) :
    (scanResults results acc).isSome := by
  induction results generalizing acc with
  | nil => rfl
  | cons r rest ih =>
    have hr := hl r (List.mem_cons_self _ _)
    have ih1 := fun acc => ih acc (fun x hx => hl x (List.mem_cons_of_mem _ hx))
      (fun x hx => hv x (List.mem_cons_of_mem _ hx))
    cases r with
    | none => simp at hr
    | some res =>
      have hv1 := hv res (List.mem_cons_self _ _)
      cases hid : res.Id with
      | none => simp [hid] at hr
      | some l =>
        rw [hid] at hv1
        cases hvals : res.Values with
        | nil =>
          simpa [scanResults, scanResult, hid, hvals] using ih1 acc
        | cons v vs =>
          rw [hvals] at hv1
          by_cases h1 : l = "cw1"
          · have hne : ¬ l = "cw2" := by rw [h1]; decide
            have hsome := hv1 (Or.inl (by rw [h1])) v (by simp)
            obtain ⟨x, hx⟩ := Option.isSome_iff_exists.mp hsome
            simpa [scanResults, scanResult, hid, hvals, h1, hx] using ih1 (x, acc.2)
          · by_cases h2 : l = "cw2"
            · have hsome := hv1 (Or.inr (by rw [h2])) v (by simp)
              obtain ⟨x, hx⟩ := Option.isSome_iff_exists.mp hsome
              simpa [scanResults, scanResult, hid, hvals, h1, h2, hx] using ih1 (acc.1, x)
            · simpa [scanResults, scanResult, hid, hvals, h1, h2] using ih1 acc

theorem formatRow_isSome {F : Type} (m : Float64Model F) (inst : Instance) (netIn netOut : F)
    (hf : inst.fieldsPresent) (ht : tagsReadable inst.Tags) :
    (formatRow m inst netIn netOut).isSome := by
  obtain ⟨hid, hty, hst, hip⟩ := hf
  obtain ⟨name, hname⟩ := Option.isSome_iff_exists.mp (getNameFromTags_isSome _ ht)
  obtain ⟨id, hid⟩ := Option.isSome_iff_exists.mp hid
  obtain ⟨ty, hty⟩ := Option.isSome_iff_exists.mp hty
  obtain ⟨ip, hip⟩ := Option.isSome_iff_exists.mp hip
  cases hs : inst.State with
  | none => simp [hs] at hst
  | some s =>
    cases hn : s.Name with
    | none => simp [hs, hn] at hst
    | some n => simp [formatRow, hname, hid, hty, hip, hs, hn]

theorem firstValuesPresent_decodedOutput {F : Type} (results : List (Option (DecodedResult F))) :
    firstValuesPresent (decodedOutput results) := by
  intro res hres _ v hv
  simp only [decodedOutput, List.mem_map] at hres
  obtain ⟨r, _, hr⟩ := hres
  cases r with
  | none => simp at hr
  | some d =>
    simp only [Option.map_some', Option.some.injEq] at hr
    subst hr
    simp only [DecodedResult.toResult, List.getElem?_map, Option.map_eq_some'] at hv
    obtain ⟨x, _, hx⟩ := hv
    rw [← hx]
    rfl

/-- C10: processing one instance produces its row (and issues its query, with
no panic) provided the instance has its id, type, state name and private
address, every tag has a key and the first `Name` tag has a value, the query
is answered, and every result series of the answer has a label; the value
lists of the series are arbitrary, of any length, zero included. -/
theorem processInstance_row_of_present {F : Type} (m : Float64Model F) (env : Env F)
    (yesterdayStart yesterdayEnd : Time) (inst : Instance) (tr : Trace)
    (instanceId : String) (results : List (Option (DecodedResult F)))
    (hid : inst.InstanceId = some instanceId)
    (hfields : inst.fieldsPresent) (htags : tagsReadable inst.Tags)
    (hquery : env.GetMetricData tr.queries.length
      (metricDataInput yesterdayStart yesterdayEnd instanceId) = .ok (decodedOutput results))
    (hlabels : labelsPresent (decodedOutput results)) :
    ∃ row, processInstance m env yesterdayStart yesterdayEnd (some inst) tr =
      (⟨tr.stdout ++ [row],
        tr.queries ++ [metricDataInput yesterdayStart yesterdayEnd instanceId]⟩, none) := by
  obtain ⟨acc, hacc⟩ := Option.isSome_iff_exists.mp
    (scanResults_isSome (decodedOutput results).MetricDataResults (m.zero, m.zero) hlabels
      (firstValuesPresent_decodedOutput results))
  obtain ⟨row, hrow⟩ := Option.isSome_iff_exists.mp
    (formatRow_isSome m inst acc.1 acc.2 hfields htags)
  refine ⟨row, ?_⟩
  have hir : instanceRow m inst (decodedOutput results) = some row := by
    simp [instanceRow, hacc, hrow]
  simp [processInstance, hid, hquery, hir]

theorem instancesLoop_append {F : Type} (m : Float64Model F) (env : Env F) (ys ye : Time)
    (xs zs : List (Option Instance)) (tr : Trace) :
    instancesLoop m env ys ye (xs ++ zs) tr =
      match instancesLoop m env ys ye xs tr with
      | (tr1, none) => instancesLoop m env ys ye zs tr1
      | (tr1, some e) => (tr1, some e) := by
  induction xs generalizing tr with
  | nil => rfl
  | cons x xs ih =>
    simp only [List.cons_append, instancesLoop]
    rcases h : processInstance m env ys ye x tr with ⟨tr1, _ | e⟩
    · simpa using ih tr1
    · rfl

theorem reservationsLoop_eq_instancesLoop {F : Type} (m : Float64Model F) (env : Env F)
    (ys ye : Time) (instances : DescribeInstancesOutput) (tr : Trace) :
    reservationsLoop m env ys ye instances.Reservations tr =
      instancesLoop m env ys ye (allInstances instances) tr := by
  obtain ⟨rs⟩ := instances
  simp only [allInstances]
  induction rs generalizing tr with
  | nil => rfl
  | cons r rs ih =>
    cases r with
    | none => simp [reservationsLoop, instancesLoop, processInstance]
    | some r =>
      simp only [reservationsLoop, List.flatMap_cons, instancesLoop_append]
      rcases h : instancesLoop m env ys ye r.Instances tr with ⟨tr1, _ | e⟩
      · simpa using ih tr1
      · rfl

theorem allInstances_inventoryResponse (groups : List (List InstanceRecord)) :
    allInstances (inventoryResponse groups) =
      groups.flatten.map fun i => some i.toInstance := by
  simp only [allInstances, inventoryResponse]
  induction groups with
  | nil => rfl
  | cons g gs ih => simp [List.flatMap_cons, ih]

/-- The rows of the instance records `is` when the `k`-th query is answered
with `answer k`, the first of them being query number `n`. -/
theorem instancesLoop_records {F : Type} (m : Float64Model F) (env : Env F) (ys ye : Time)
    (answer : Nat → InstanceRecord → List (Series F)) (is : List InstanceRecord) (tr : Trace)
    (h : ∀ j i, is[j]? = some i →
      env.GetMetricData (tr.queries.length + j) (metricDataInput ys ye i.instanceId)
        = .ok (metricsResponse (answer (tr.queries.length + j) i))) :
    instancesLoop m env ys ye (is.map fun i => some i.toInstance) tr =
      (⟨tr.stdout ++ (is.enumFrom tr.queries.length).map fun p => reportRow m p.2 (answer p.1 p.2),
        tr.queries ++ is.map fun i => metricDataInput ys ye i.instanceId⟩, none) := by
  induction is generalizing tr with
  | nil => simp [instancesLoop]
  | cons i is ih =>
    have h0 := h 0 i (by simp)
    simp only [Nat.add_zero] at h0
    have hstep : processInstance m env ys ye (some i.toInstance) tr =
        (⟨tr.stdout ++ [reportRow m i (answer tr.queries.length i)],
          tr.queries ++ [metricDataInput ys ye i.instanceId]⟩, none) := by
      have hid : i.toInstance.InstanceId = some i.instanceId := rfl
      simp only [processInstance, hid, h0, instanceRow_records]
    simp only [List.map_cons, instancesLoop, hstep]
    rw [ih]
    · simp [List.enumFrom_cons, List.append_assoc]
    · intro j i' hj
      have := h (j + 1) i' (by simpa using hj)
      simpa [Nat.add_assoc, Nat.add_comm 1 j] using this


theorem Run_eq_instancesLoop {F : Type} (m : Float64Model F) (env : Env F) (ny : Location)
    (instances : DescribeInstancesOutput)
    (hloc : env.LoadLocation "America/New_York" = .ok ny) (hsess : env.NewSession = .ok ())
    (hinv : env.DescribeInstances = .ok instances) :
    Run m env =
      match instancesLoop m env (yStart ((env.Now 0).In ny)) (yEnd ((env.Now 1).In ny))
          (allInstances instances) ⟨[header], []⟩ with
      | (tr, none) => ⟨tr.stdout, tr.queries, Exit.ok⟩
      | (tr, some e) => ⟨tr.stdout, tr.queries, e⟩ := by
  simp only [Run, hloc, hsess, hinv, reservationsLoop_eq_instancesLoop]

theorem Run_records_then_error {F : Type} (m : Float64Model F) (env : Env F) (ny : Location)
    (groups : List (List InstanceRecord)) (pre : List InstanceRecord) (bad : InstanceRecord)
    (rest : List InstanceRecord) (answer : Nat → InstanceRecord → List (Series F)) (err : Err)
    (hloc : env.LoadLocation "America/New_York" = .ok ny) (hsess : env.NewSession = .ok ())
    (hinv : env.DescribeInstances = .ok (inventoryResponse groups))
    (hsplit : groups.flatten = pre ++ bad :: rest)
    (hok : ∀ j i, pre[j]? = some i →
      env.GetMetricData j (queryFor env ny i) = .ok (metricsResponse (answer j i)))
    (hfail : env.GetMetricData pre.length (queryFor env ny bad) = .error err) :
    Run m env =
      ⟨header :: (pre.enum.map fun p => reportRow m p.2 (answer p.1 p.2)),
        (pre ++ [bad]).map (queryFor env ny), Exit.fatal err⟩ := by
  have hloop := instancesLoop_records m env (yStart ((env.Now 0).In ny))
    (yEnd ((env.Now 1).In ny)) answer pre ⟨[header], []⟩ (by
      intro j i hj
      simpa [queryFor] using hok j i hj)
  have hid : bad.toInstance.InstanceId = some bad.instanceId := rfl
  rw [Run_eq_instancesLoop m env ny _ hloc hsess hinv, allInstances_inventoryResponse, hsplit]
  simp only [List.map_append, List.map_cons, instancesLoop_append, hloop, instancesLoop]
  simp only [queryFor] at hfail
  simp [processInstance, hid, hfail, List.enum, queryFor]

/-- C3: for every inventory (groups of instance records) and every metrics
service that answers every query, the run ends normally, its output is the
header followed by exactly one row per instance, and the row at position
`k + 1` is the report row of the `k`-th instance of the flattened inventory
with the answer to the `k`-th query. -/
theorem Run_one_row_per_instance_in_order {F : Type} (m : Float64Model F) (env : Env F)
    (ny : Location) (groups : List (List InstanceRecord))
    (answer : Nat → GetMetricDataInput → List (Series F))
    (hloc : env.LoadLocation "America/New_York" = .ok ny) (hsess : env.NewSession = .ok ())
    (hinv : env.DescribeInstances = .ok (inventoryResponse groups))
    (hmet : ∀ k q, env.GetMetricData k q = .ok (metricsResponse (answer k q))) :
    (Run m env).exit = Exit.ok ∧
    (Run m env).stdout.length = groups.flatten.length + 1 ∧
    (Run m env).stdout[0]? = some header ∧
    ∀ k i, groups.flatten[k]? = some i →
      (Run m env).stdout[k + 1]? = some (reportRow m i (answer k (queryFor env ny i))) := by
  have hloop := instancesLoop_records m env (yStart ((env.Now 0).In ny))
    (yEnd ((env.Now 1).In ny)) (fun k i => answer k (queryFor env ny i)) groups.flatten
    ⟨[header], []⟩ (fun j i _ => hmet _ _)
  rw [Run_eq_instancesLoop m env ny _ hloc hsess hinv, allInstances_inventoryResponse, hloop]
  refine ⟨rfl, by simp, by simp, ?_⟩
  intro k i hk
  simp [List.getElem?_enumFrom, hk]

/-- C4: for every inventory of `n` instances and `1 ≤ k ≤ n`, if the queries of
the first `k - 1` instances are answered and the query of the `k`-th fails
with `err`, the run ends with `log.Fatal(err)`, its output is exactly the
header followed by the rows of the first `k - 1` instances, and the queries
issued are exactly those of the first `k` instances. -/
theorem Run_stops_at_first_failed_query {F : Type} (m : Float64Model F) (env : Env F)
    (ny : Location) (groups : List (List InstanceRecord))
    (answer : Nat → List (Series F)) (err : Err) (k : Nat)
    (hloc : env.LoadLocation "America/New_York" = .ok ny) (hsess : env.NewSession = .ok ())
    (hinv : env.DescribeInstances = .ok (inventoryResponse groups))
    (hk : 1 ≤ k) (hkn : k ≤ groups.flatten.length)
    (hok : ∀ j i, j < k - 1 → groups.flatten[j]? = some i →
      env.GetMetricData j (queryFor env ny i) = .ok (metricsResponse (answer j)))
    (hfail : ∀ i, groups.flatten[k - 1]? = some i →
      env.GetMetricData (k - 1) (queryFor env ny i) = .error err) :
    (Run m env).exit = Exit.fatal err ∧
    (Run m env).stdout =
      header :: ((groups.flatten.take (k - 1)).enum.map fun p => reportRow m p.2 (answer p.1)) ∧
    (Run m env).queries = (groups.flatten.take k).map (queryFor env ny) := by
  have hlt : k - 1 < groups.flatten.length := by omega
  have hsplit : groups.flatten =
      groups.flatten.take (k - 1) ++ groups.flatten[k - 1] :: groups.flatten.drop k := by
    have h1 := List.take_append_drop (k - 1) groups.flatten
    have h2 := List.drop_eq_getElem_cons hlt
    have h3 : k - 1 + 1 = k := by omega
    rw [h2, h3] at h1
    exact h1.symm
  have htake : groups.flatten.take k =
      groups.flatten.take (k - 1) ++ [groups.flatten[k - 1]] := by
    have h3 : k - 1 + 1 = k := by omega
    have := @List.take_succ _ groups.flatten (k - 1)
    rw [h3] at this
    rw [this, List.getElem?_eq_getElem hlt]
    rfl
  have hlen : (groups.flatten.take (k - 1)).length = k - 1 := by
    rw [List.length_take]; omega
  have hbad : env.GetMetricData (groups.flatten.take (k - 1)).length
      (queryFor env ny groups.flatten[k - 1]) = .error err := by
    rw [hlen]
    exact hfail _ (List.getElem?_eq_getElem hlt)
  have hrun := Run_records_then_error m env ny groups _ _ _ (fun k _ => answer k) err hloc hsess
    hinv hsplit (by
      intro j i hj
      have hjlt : j < k - 1 := by
        have := (List.getElem?_eq_some.mp hj).1
        omega
      have hji : groups.flatten[j]? = some i := by
        rw [List.getElem?_take_of_lt hjlt] at hj
        exact hj
      exact hok j i hjlt hji) hbad
  rw [hrun, htake]
  exact ⟨rfl, rfl, rfl⟩

/-- What a completed iteration of the loop body has done. -/
theorem processInstance_eq_none {F : Type} (m : Float64Model F) (env : Env F) (ys ye : Time)
    (inst : Option Instance) (tr tr1 : Trace)
    (h : processInstance m env ys ye inst tr = (tr1, none)) :
    ∃ i id result row, inst = some i ∧ i.InstanceId = some id ∧
      env.GetMetricData tr.queries.length (metricDataInput ys ye id) = .ok result ∧
      instanceRow m i result = some row ∧
      tr1 = ⟨tr.stdout ++ [row], tr.queries ++ [metricDataInput ys ye id]⟩ := by
  cases inst with
  | none => simp [processInstance] at h
  | some i =>
    cases hid : i.InstanceId with
    | none => simp [processInstance, hid] at h
    | some id =>
      cases hq : env.GetMetricData tr.queries.length (metricDataInput ys ye id) with
      | error e => simp [processInstance, hid, hq] at h
      | ok result =>
        cases hr : instanceRow m i result with
        | none => simp [processInstance, hid, hq, hr] at h
        | some row =>
          simp [processInstance, hid, hq, hr] at h
          exact ⟨i, id, result, row, rfl, hid, hq, hr, h.symm⟩

theorem instanceRow_eq_some {F : Type} (m : Float64Model F) (i : Instance)
    (result : GetMetricDataOutput F) (row : String) (h : instanceRow m i result = some row) :
    ∃ name type state stateName id ip netIn netOut,
      getNameFromTags i.Tags = some name ∧ i.InstanceType = some type ∧ i.State = some state ∧
      state.Name = some stateName ∧ i.InstanceId = some id ∧ i.PrivateIpAddress = some ip ∧
      scanResults result.MetricDataResults (m.zero, m.zero) = some (netIn, netOut) ∧
      row = name ++ "," ++ type ++ "," ++ stateName ++ "," ++ id ++ "," ++ ip ++ ","
        ++ m.fmtV netIn ++ "," ++ m.fmtV netOut ++ "\n" := by
  simp only [instanceRow, formatRow, Option.bind_eq_bind, Option.bind_eq_some] at h
  obtain ⟨acc, hacc, name, hname, type, htype, state, hstate, stateName, hsn, id, hid, ip, hip,
    hrow⟩ := h
  exact ⟨name, type, state, stateName, id, ip, acc.1, acc.2, hname, htype, hstate, hsn, hid, hip,
    hacc, (Option.some.inj hrow).symm⟩

theorem instancesLoop_eq_none {F : Type} (m : Float64Model F) (env : Env F) (ys ye : Time)
    (items : List (Option Instance)) (tr tr1 : Trace)
    (h : instancesLoop m env ys ye items tr = (tr1, none)) :
    tr1.queries.length = tr.queries.length + items.length ∧
    ∃ rows, tr1.stdout = tr.stdout ++ rows ∧ rows.length = items.length ∧
      ∀ k inst, items[k]? = some inst →
        ∃ i id result row, inst = some i ∧ i.InstanceId = some id ∧
          env.GetMetricData (tr.queries.length + k) (metricDataInput ys ye id) = .ok result ∧
          instanceRow m i result = some row ∧ rows[k]? = some row := by
  induction items generalizing tr with
  | nil =>
    simp only [instancesLoop, Prod.mk.injEq, and_true] at h
    subst h
    exact ⟨rfl, [], by simp, rfl, by simp⟩
  | cons x xs ih =>
    simp only [instancesLoop] at h
    rcases hstep : processInstance m env ys ye x tr with ⟨tr2, _ | e⟩
    · rw [hstep] at h
      simp only at h
      obtain ⟨i, id, result, row, hx, hid, hq, hr, htr2⟩ :=
        processInstance_eq_none m env ys ye x tr tr2 hstep
      obtain ⟨hlen, rows, hout, hrows, hall⟩ := ih tr2 h
      subst htr2
      refine ⟨by simp at hlen; simp; omega, row :: rows, by simp [hout], by simp [hrows], ?_⟩
      intro k inst hk
      cases k with
      | zero =>
        simp at hk
        exact ⟨i, id, result, row, by rw [← hk, hx], hid, hq, hr, by simp⟩
      | succ k =>
        obtain ⟨i', id', result', row', h1, h2, h3, h4, h5⟩ := hall k inst (by simpa using hk)
        refine ⟨i', id', result', row', h1, h2, ?_, h4, by simpa using h5⟩
        simpa [Nat.add_assoc, Nat.add_comm 1 k] using h3
    · rw [hstep] at h
      simp at h

theorem processInstance_exit_ne_ok {F : Type} (m : Float64Model F) (env : Env F) (ys ye : Time)
    (inst : Option Instance) (tr tr1 : Trace) (e : Exit)
    (h : processInstance m env ys ye inst tr = (tr1, some e)) : e ≠ Exit.ok := by
  intro he
  subst he
  cases inst with
  | none => simp [processInstance] at h
  | some i =>
    cases hid : i.InstanceId with
    | none => simp [processInstance, hid] at h
    | some id =>
      cases hq : env.GetMetricData tr.queries.length (metricDataInput ys ye id) with
      | error e => simp [processInstance, hid, hq] at h
      | ok result =>
        cases hr : instanceRow m i result with
        | none => simp [processInstance, hid, hq, hr] at h
        | some row => simp [processInstance, hid, hq, hr] at h

theorem instancesLoop_exit_ne_ok {F : Type} (m : Float64Model F) (env : Env F) (ys ye : Time)
    (items : List (Option Instance)) (tr tr1 : Trace) (e : Exit)
    (h : instancesLoop m env ys ye items tr = (tr1, some e)) : e ≠ Exit.ok := by
  induction items generalizing tr with
  | nil => simp [instancesLoop] at h
  | cons x xs ih =>
    simp only [instancesLoop] at h
    rcases hstep : processInstance m env ys ye x tr with ⟨tr2, _ | e2⟩
    · rw [hstep] at h
      exact ih tr2 h
    · rw [hstep] at h
      simp only [Prod.mk.injEq, Option.some.injEq] at h
      rw [← h.2]
      exact processInstance_exit_ne_ok m env ys ye x tr tr2 e2 hstep

/-- C7: on a run that ends normally, the first write to standard output is the
header line `Name,Type,State,ID,IP,NetworkIn,NetworkOut`, there is one more
write per instance visited, and the write for the `k`-th instance is its name
(from its tags), type, state name, id and private address, then the inbound
and outbound values recorded from the answer to its query, each rendered by
`%v`, joined by single commas, unquoted, and ended by a newline. -/
theorem Run_success_header_and_rows {F : Type} (m : Float64Model F) (env : Env F)
    (h : (Run m env).exit = Exit.ok) :
    ∃ ny instances, env.LoadLocation "America/New_York" = .ok ny ∧
      env.DescribeInstances = .ok instances ∧
      (Run m env).stdout[0]? = some "Name,Type,State,ID,IP,NetworkIn,NetworkOut\n" ∧
      (Run m env).stdout.length = (allInstances instances).length + 1 ∧
      ∀ k inst, (allInstances instances)[k]? = some inst →
        ∃ i name type state stateName id ip result netIn netOut,
          inst = some i ∧ getNameFromTags i.Tags = some name ∧ i.InstanceType = some type ∧
          i.State = some state ∧ state.Name = some stateName ∧ i.InstanceId = some id ∧
          i.PrivateIpAddress = some ip ∧
          env.GetMetricData k
            (metricDataInput (yStart ((env.Now 0).In ny)) (yEnd ((env.Now 1).In ny)) id)
            = .ok result ∧
          scanResults result.MetricDataResults (m.zero, m.zero) = some (netIn, netOut) ∧
          (Run m env).stdout[k + 1]? =
            some (name ++ "," ++ type ++ "," ++ stateName ++ "," ++ id ++ "," ++ ip ++ ","
              ++ m.fmtV netIn ++ "," ++ m.fmtV netOut ++ "\n") := by
  cases hloc : env.LoadLocation "America/New_York" with
  | error e => simp [Run, hloc] at h
  | ok ny =>
    cases hsess : env.NewSession with
    | error e => simp [Run, hloc, hsess] at h
    | ok u =>
      cases hinv : env.DescribeInstances with
      | error e => simp [Run, hloc, hsess, hinv] at h
      | ok instances =>
        have hrun := Run_eq_instancesLoop m env ny instances hloc hsess hinv
        rcases hl : instancesLoop m env (yStart ((env.Now 0).In ny))
            (yEnd ((env.Now 1).In ny)) (allInstances instances) ⟨[header], []⟩ with ⟨tr, _ | e⟩
        · rw [hl] at hrun
          simp only at hrun
          obtain ⟨_, rows, hout, hrows, hall⟩ := instancesLoop_eq_none m env _ _ _ _ _ hl
          refine ⟨ny, instances, rfl, rfl, ?_, ?_, ?_⟩
          · rw [hrun, hout]; simp [header]
          · rw [hrun, hout]; simp [hrows, Nat.add_comm]
          · intro k inst hk
            obtain ⟨i, id, result, row, h1, h2, h3, h4, h5⟩ := hall k inst hk
            obtain ⟨name, type, state, stateName, id', ip, netIn, netOut, g1, g2, g3, g4, g5, g6,
              g7, g8⟩ := instanceRow_eq_some m i result row h4
            rw [h2] at g5
            cases g5
            refine ⟨i, name, type, state, stateName, id, ip, result, netIn, netOut, h1, g1, g2, g3,
              g4, h2, g6, by simpa using h3, g7, ?_⟩
            rw [hrun, hout, ← g8]
            simpa using h5
        · rw [hl] at hrun
          simp only at hrun
          rw [hrun] at h
          simp only at h
          exact absurd h (instancesLoop_exit_ne_ok m env _ _ _ _ _ _ hl)

theorem zoneAdjust_of_constant (loc : Location) (c o : Int)
    (h : ∀ u, min c (c - o) ≤ u → u ≤ max c (c - o) → (loc.lookup u).offset = o) :
    zoneAdjust loc c = c - o := by
  have hc : (loc.lookup c).offset = o := h c (min_le_left _ _) (le_max_left _ _)
  have hu : (loc.lookup (c - o)).offset = o := h (c - o) (min_le_right _ _) (le_max_right _ _)
  unfold zoneAdjust
  simp only [hc]
  by_cases ho : o = 0
  · simp [ho]
  · simp only [ne_eq, ho, not_false_eq_true, if_true, hu]
    split <;> rfl

theorem civilUnix_midnight (year month day : Int) :
    (civilUnix year month day 0 0 0 0).2 = 0 := by
  simp [civilUnix, time.norm]

theorem civilUnix_end_of_day (year month day : Int) :
    civilUnix year month day 23 59 59 999999999 =
      ((civilUnix year month day 0 0 0 0).1 + 86399, 999999999) := by
  have h1 : time.norm 59 999999999 1000000000 = (59, 999999999) := by decide
  have h2 : time.norm 59 59 60 = (59, 59) := by decide
  have h3 : time.norm 23 59 60 = (23, 59) := by decide
  have h4 : time.norm 0 0 1000000000 = (0, 0) := by decide
  have h5 : time.norm 0 0 60 = (0, 0) := by decide
  have h6 : time.norm day 23 24 = (day, 23) := by simp [time.norm]
  have h7 : time.norm day 0 24 = (day, 0) := by simp [time.norm]
  simp only [civilUnix, h1, h2, h3, h4, h5, h6, h7, secondsPerDay, Prod.mk.injEq, and_true]
  omega

theorem add_minus_24h (t : Time) (h0 : 0 ≤ t.nsec) (h1 : t.nsec < 1000000000) :
    t.Add (-24 * Hour) = { t with sec := t.sec - 86400 } := by
  have hd : Int.tdiv (-24 * Hour) 1000000000 = -86400 := by decide
  have hm : Int.tmod (-24 * Hour) 1000000000 = 0 := by decide
  unfold Time.Add
  simp only [hd, hm, Int.add_zero]
  rw [if_neg (by omega), if_neg (by omega)]
  rfl

/-- Away from transition days the window has its full length: when the zone of
`t` keeps one UTC offset throughout the local day of `t`, `yEnd t - yStart t`
is exactly 24 hours minus one nanosecond. -/
theorem yEnd_sub_yStart_steady_offset (t : Time) (o : Int) (h : t.offsetSteady o) :
    (yEnd t).Sub (yStart t) = 24 * Hour - Nanosecond := by
  have hs : zoneAdjust t.loc t.midnightCivil = t.midnightCivil - o :=
    zoneAdjust_of_constant _ _ _ fun u h1 h2 => h u h1 (by omega)
  have he : zoneAdjust t.loc (t.midnightCivil + 86399) = t.midnightCivil + 86399 - o :=
    zoneAdjust_of_constant _ _ _ fun u h1 h2 => h u
      (by simp only [min_le_iff, le_min_iff] at h1 ⊢; omega)
      (by simp only [le_max_iff, max_le_iff] at h2 ⊢; omega)
  have hstart : yStart t = ⟨t.midnightCivil - o - 86400, 0, t.loc⟩ := by
    simp only [yStart, Date, Time.Location]
    rw [add_minus_24h _ (by simp [civilUnix_midnight]) (by simp [civilUnix_midnight])]
    simp only [civilUnix_midnight]
    rw [show (civilUnix t.Date.1 t.Date.2.1 t.Date.2.2 0 0 0 0).1 = t.midnightCivil from rfl, hs]
  have hend : yEnd t = ⟨t.midnightCivil + 86399 - o - 86400, 999999999, t.loc⟩ := by
    simp only [yEnd, Date, Time.Location, civilUnix_end_of_day]
    rw [add_minus_24h _ (by simp) (by simp)]
    rw [show (civilUnix t.Date.1 t.Date.2.1 t.Date.2.2 0 0 0 0).1 = t.midnightCivil from rfl, he]
  rw [hstart, hend]
  simp only [Time.Sub, Hour, Second, Nanosecond]
  ring

theorem noonJune15_offsetSteady : noonJune15.offsetSteady (-14400) := by
  have hc : noonJune15.midnightCivil = 1718409600 := by decide
  intro u h1 h2
  rw [hc] at h1 h2
  have h1' : (1718409600 : Int) ≤ u := by simpa using h1
  have h2' : u ≤ (1718510399 : Int) := by
    have : max (1718409600 : Int) (1718409600 - -14400) + 86399 = 1718510399 := by decide
    rw [this] at h2
    exact h2
  simp only [noonJune15, Location.lookup, newYork, lookupFrom]
  rw [if_neg (by omega), if_neg (by omega), if_neg (by omega), if_pos (by omega)]

/-- The window of noon of 15 June 2024 in New York has its full length. -/
theorem yEnd_sub_yStart_steady_offset_witness :
    noonJune15.offsetSteady (-14400) ∧ (yEnd noonJune15).Sub (yStart noonJune15) = 24 * Hour - Nanosecond :=
  ⟨noonJune15_offsetSteady, yEnd_sub_yStart_steady_offset noonJune15 (-14400) noonJune15_offsetSteady⟩

/-- C1, the code at the failing input: at noon of 10 March 2024 in New York, the
day daylight saving time begins, `yStart` is 00:00:00 of 9 March, the start of
the previous day, but `yEnd` is 22:59:59.999999999 of 9 March, so that
`yEnd t - yStart t` is 23 hours minus one nanosecond and not the 24 hours minus
one nanosecond from the start to the end of 9 March. -/
theorem yEnd_sub_yStart_on_transition_day :
    noonMarch10.loc = newYork ∧ noonMarch10.Date = (2024, 3, 10) ∧
      (yStart noonMarch10).Date = (2024, 3, 9) ∧ (yStart noonMarch10).Clock = (0, 0, 0) ∧
      (yEnd noonMarch10).Date = (2024, 3, 9) ∧ (yEnd noonMarch10).Clock = (22, 59, 59) ∧
      (yEnd noonMarch10).Sub (yStart noonMarch10) = 23 * Hour - Nanosecond ∧
      ¬ (yEnd noonMarch10).Sub (yStart noonMarch10) = 24 * Hour - Nanosecond ∧
      (Date 2024 3 9 23 59 59 999999999 newYork).Sub (yStart noonMarch10)
        = 24 * Hour - Nanosecond := by
  decide

/-- C2, the code at the failing inputs: at noon of 11 March 2024 in New York
`yStart` is 23:00:00 of 9 March, two calendar days before and not at midnight;
at noon of 10 March 2024 `yEnd` is 22:59:59.999999999 of 9 March. -/
theorem yStart_yEnd_next_to_transition :
    (noonMarch11.Date = (2024, 3, 11) ∧ (yStart noonMarch11).Date = (2024, 3, 9) ∧
      (yStart noonMarch11).Clock = (23, 0, 0)) ∧
    (noonMarch10.Date = (2024, 3, 10) ∧ (yEnd noonMarch10).Date = (2024, 3, 9) ∧
      (yEnd noonMarch10).Clock = (22, 59, 59) ∧ (yEnd noonMarch10).nsec = 999999999) := by
  decide


/-- Witness of C3: the run of `fleetEnv`, three instances in two reservations. -/
theorem Run_one_row_per_instance_in_order_witness :
    (Run wholeNumbers fleetEnv).stdout =
        ["Name,Type,State,ID,IP,NetworkIn,NetworkOut\n",
          "web1,t2.micro,running,i-1,10.0.0.5,1000,500\n",
          ",m5.large,stopped,i-2,10.0.0.6,0,0\n",
          "db1,r5.xlarge,running,i-3,10.0.0.7,0,0\n"] ∧
      ((Run wholeNumbers fleetEnv).exit = Exit.ok ∧
        (Run wholeNumbers fleetEnv).stdout.length = [[web1], [unnamed, db1]].flatten.length + 1 ∧
        (Run wholeNumbers fleetEnv).stdout[0]? = some header ∧
        ∀ k i, [[web1], [unnamed, db1]].flatten[k]? = some i →
          (Run wholeNumbers fleetEnv).stdout[k + 1]? =
            some (reportRow wholeNumbers i (fleetAnswer k))) :=
  ⟨by decide,
    Run_one_row_per_instance_in_order wholeNumbers fleetEnv newYork [[web1], [unnamed, db1]]
      (fun k _ => fleetAnswer k) rfl rfl rfl (fun _ _ => rfl)⟩

/-- Witness of C4: the run of `throttledEnv` with `k = 2`: the second query
fails. -/
theorem Run_stops_at_first_failed_query_witness :
    (Run wholeNumbers throttledEnv).exit = Exit.fatal "Throttling" ∧
      (Run wholeNumbers throttledEnv).stdout =
        header :: (([[web1], [unnamed, db1]].flatten.take (2 - 1)).enum.map fun p =>
          reportRow wholeNumbers p.2 (fleetAnswer p.1)) ∧
      (Run wholeNumbers throttledEnv).queries =
        ([[web1], [unnamed, db1]].flatten.take 2).map (queryFor throttledEnv newYork) :=
  Run_stops_at_first_failed_query wholeNumbers throttledEnv newYork [[web1], [unnamed, db1]]
    fleetAnswer "Throttling" 2 rfl rfl rfl (by decide) (by decide)
    (fun j _ hj _ => by
      have h0 : j = 0 := by omega
      subst h0
      rfl)
    (fun _ _ => rfl)

/-- Witness of C7: the end-to-end scenario. The output is the header line and
`web1,t2.micro,running,i-1,10.0.0.5,1000,500`. -/
theorem Run_success_header_and_rows_witness :
    (Run wholeNumbers scenarioEnv).exit = Exit.ok ∧
      (Run wholeNumbers scenarioEnv).stdout =
        ["Name,Type,State,ID,IP,NetworkIn,NetworkOut\n",
          "web1,t2.micro,running,i-1,10.0.0.5,1000,500\n"] ∧
      ∃ ny instances, scenarioEnv.LoadLocation "America/New_York" = .ok ny ∧
        scenarioEnv.DescribeInstances = .ok instances ∧
        (Run wholeNumbers scenarioEnv).stdout[0]?
          = some "Name,Type,State,ID,IP,NetworkIn,NetworkOut\n" ∧
        (Run wholeNumbers scenarioEnv).stdout.length = (allInstances instances).length + 1 ∧
        ∀ k inst, (allInstances instances)[k]? = some inst →
          ∃ i name type state stateName id ip result netIn netOut,
            inst = some i ∧ getNameFromTags i.Tags = some name ∧ i.InstanceType = some type ∧
            i.State = some state ∧ state.Name = some stateName ∧ i.InstanceId = some id ∧
            i.PrivateIpAddress = some ip ∧
            scenarioEnv.GetMetricData k
              (metricDataInput (yStart ((scenarioEnv.Now 0).In ny))
                (yEnd ((scenarioEnv.Now 1).In ny)) id) = .ok result ∧
            scanResults result.MetricDataResults (wholeNumbers.zero, wholeNumbers.zero)
              = some (netIn, netOut) ∧
            (Run wholeNumbers scenarioEnv).stdout[k + 1]? =
              some (name ++ "," ++ type ++ "," ++ stateName ++ "," ++ id ++ "," ++ ip ++ ","
                ++ wholeNumbers.fmtV netIn ++ "," ++ wholeNumbers.fmtV netOut ++ "\n") :=
  ⟨by decide, by decide, Run_success_header_and_rows wholeNumbers scenarioEnv (by decide)⟩

/-- Witness of C6: responses without a value for `cw1`, for `cw2` and for both;
the row of the untagged instance `unnamed` with two empty series. -/
theorem no_values_recorded_as_zero_witness :
    (∃ netOut, scanResults (metricsResponse [⟨"cw2", [500]⟩, ⟨"cw1", []⟩]).MetricDataResults
        (wholeNumbers.zero, wholeNumbers.zero) = some (wholeNumbers.zero, netOut)) ∧
      (∃ netIn, scanResults (metricsResponse [⟨"cw1", [1000]⟩]).MetricDataResults
        (wholeNumbers.zero, wholeNumbers.zero) = some (netIn, wholeNumbers.zero)) ∧
      (∃ fields, instanceRow wholeNumbers unnamed.toInstance
        (metricsResponse [⟨"cw1", []⟩, ⟨"cw2", []⟩]) = some (fields ++ ",0,0" ++ "\n")) ∧
      instanceRow wholeNumbers unnamed.toInstance (metricsResponse [⟨"cw1", []⟩, ⟨"cw2", []⟩])
        = some ",m5.large,stopped,i-2,10.0.0.6,0,0\n" :=
  ⟨(no_values_recorded_as_zero wholeNumbers [⟨"cw2", [500]⟩, ⟨"cw1", []⟩]).1 (by decide),
    (no_values_recorded_as_zero wholeNumbers [⟨"cw1", [1000]⟩]).2.1 (by decide),
    (no_values_recorded_as_zero wholeNumbers [⟨"cw1", []⟩, ⟨"cw2", []⟩]).2.2 (by decide) unnamed,
    by decide⟩

/-- Witness of C8: a response whose `cw1` series comes last and whose `cw2`
series comes first, each with further values. -/
theorem single_series_first_value_recorded_witness :
    (∃ netOut, scanResults
        (metricsResponse [⟨"cw2", [500, 7]⟩, ⟨"other", [3]⟩, ⟨"cw1", [1000, 8, 9]⟩]).MetricDataResults
        (wholeNumbers.zero, wholeNumbers.zero) = some (1000, netOut)) ∧
      (∃ netIn, scanResults
        (metricsResponse [⟨"cw2", [500, 7]⟩, ⟨"other", [3]⟩, ⟨"cw1", [1000, 8, 9]⟩]).MetricDataResults
        (wholeNumbers.zero, wholeNumbers.zero) = some (netIn, 500)) :=
  ⟨(single_series_first_value_recorded wholeNumbers
      [⟨"cw2", [500, 7]⟩, ⟨"other", [3]⟩, ⟨"cw1", [1000, 8, 9]⟩] ⟨"cw1", [1000, 8, 9]⟩ 1000 [8, 9]).1
      (by decide) rfl,
    (single_series_first_value_recorded wholeNumbers
      [⟨"cw2", [500, 7]⟩, ⟨"other", [3]⟩, ⟨"cw1", [1000, 8, 9]⟩] ⟨"cw2", [500, 7]⟩ 500 [7]).2
      (by decide) rfl⟩

/-- C9, the code at the failing input: when the two readings of the clock fall
just before and just after local midnight, the query of the run starts at
00:00:00 of 14 June 2024 and ends at 23:59:59 of 15 June 2024, 48 hours minus
one nanosecond later. -/
theorem Run_window_spans_two_days :
    (Run wholeNumbers midnightEnv).exit = Exit.ok ∧
    (Run wholeNumbers midnightEnv).queries.map
        (fun q => (q.StartTime.Date, q.StartTime.Clock, q.EndTime.Date, q.EndTime.Clock)) =
      [((2024, 6, 14), (0, 0, 0), (2024, 6, 15), (23, 59, 59))] ∧
    (Run wholeNumbers midnightEnv).queries.map (fun q => q.EndTime.Sub q.StartTime) =
      [48 * Hour - Nanosecond] := by
  refine ⟨by decide, by decide, by decide⟩

theorem db1Extra_tagsReadable : tagsReadable db1Extra.Tags := by
  refine ⟨by decide, ?_⟩
  intro tag h
  have : tag = some ⟨some "Name", some "db1"⟩ := by
    simpa [db1Extra, db1, InstanceRecord.toInstance, TagRecord.toTag, List.find?_cons] using h.symm
  subst this
  rfl

/-- Witness of C10: the instance `db1Extra`, whose tag after the first `Name`
tag has no value, with the answer `mixedOutput`: the row is
`db1,r5.xlarge,running,i-3,10.0.0.7,0,500`. -/
theorem processInstance_row_of_present_witness :
    (∃ row, processInstance wholeNumbers mixedEnv noonJune15 noonJune15 (some db1Extra)
        ⟨[header], []⟩ =
      (⟨[header] ++ [row], [] ++ [metricDataInput noonJune15 noonJune15 "i-3"]⟩, none)) ∧
    processInstance wholeNumbers mixedEnv noonJune15 noonJune15 (some db1Extra) ⟨[header], []⟩ =
      (⟨[header, "db1,r5.xlarge,running,i-3,10.0.0.7,0,500\n"],
        [metricDataInput noonJune15 noonJune15 "i-3"]⟩, none) :=
  ⟨processInstance_row_of_present wholeNumbers mixedEnv noonJune15 noonJune15 db1Extra
      ⟨[header], []⟩ "i-3"
      [some ⟨some "cw1", []⟩, some ⟨some "other", [3]⟩, some ⟨some "cw2", [500, 7]⟩] rfl
      (by unfold Instance.fieldsPresent; decide) db1Extra_tagsReadable rfl
      (by unfold labelsPresent; decide),
    by decide⟩

end Awsmonitor
